import Mathlib

/-!
Verification of the SuperGlue feature-matching middle-end
(models/superglue_triton.py) against its specification.

The file shallowly embeds the numeric pipeline over the reals:
tensors become functions over `Fin`, the batch dimension (always
mapped uniformly) is dropped, and floating point arithmetic is
idealized as real arithmetic.  Shape- and dtype-level behavior
(the zero-keypoint bypass branch, the dtype of the returned index
tensor, configuration validation) is embedded separately at the
level of shapes and tags.
-/

/-! ## Shape/dtype-level model of `SuperGlue.forward`'s bypass branch -/

/-- Element type tag of a torch tensor, as far as the claims need it. -/
inductive TorchDType
  | float
  | int
deriving DecidableEq

/-- A tensor that is known to be constant: its shape, the constant value
every entry holds, and its element dtype.  Models the two outputs of the
zero-keypoint bypass branch (`kpts0.new_full(kshape0, -1, dtype=torch.int)`
and `kpts0.new_zeros(shape0)`). -/
structure ConstTensor where
  shape : List Nat
  fill : Int
  dtype : TorchDType
deriving DecidableEq

/-- Shape-level model of the early-return branch of `SuperGlue.forward`
(superglue_triton.py lines 252-254).  `kpts0` has shape `[b, n0, 2]` and
`kpts1` has shape `[b, n1, 2]`; `shape0` is the forward argument of that
name (passed to `new_zeros` verbatim by the code).  When either keypoint
set is empty the code returns
`(kpts0.new_full(kpts0.shape[:-1], -1, dtype=torch.int), kpts0.new_zeros(shape0))`;
otherwise the outputs are not constant tensors (`none` here). -/
def forwardConstOutput (b n0 n1 : Nat) (shape0 : List Nat) :
    Option (ConstTensor × ConstTensor) :=
  if n0 = 0 ∨ n1 = 0 then
    some (⟨([b, n0, 2] : List Nat).dropLast, -1, TorchDType.int⟩,
          ⟨shape0, 0, TorchDType.float⟩)
  else
    none

/-- Dtype of the `indices0` output of `SuperGlue.forward` on each path:
the bypass branch builds it with `dtype=torch.int` (line 254), the main
path ends with `indices0 = indices0.float()` (line 292). -/
def indices0Dtype (b n0 n1 : Nat) (shape0 : List Nat) : TorchDType :=
  match forwardConstOutput b n0 n1 shape0 with
  | some p => p.1.dtype
  | none => TorchDType.float

/-! ## Configuration and construction (`SuperGlue.__init__`) -/

/-- The model record produced by a successful construction; only the
fields the claims touch are kept. -/
structure SuperGlueModel where
  weights : String
deriving DecidableEq

/-- The `weights` entry of `SuperGlue.default_config`. -/
def defaultWeights : String := "indoor"

/-- `{**self.default_config, **config}`: the caller's `weights` entry
overrides the default when present. -/
def mergedWeights (w : Option String) : String := w.getD defaultWeights

/-- Model of `SuperGlue.__init__` restricted to the weight-profile
selector: the constructor runs `assert self.weights in ['indoor', 'outdoor']`
(line 239) before loading any weights, so construction raises — modeled
as `Except.error` — for any other selector, and no model value exists. -/
def superGlueInit (w : Option String) : Except String SuperGlueModel :=
  let ws := mergedWeights w
  if ws = "indoor" ∨ ws = "outdoor" then
    Except.ok ⟨ws⟩
  else
    Except.error ("AssertionError")

/-! ## The attentional GNN (`AttentionalGNN.forward`) -/

/-- One pass of `AttentionalGNN.forward` (lines 140-150).  Each list entry
is one `AttentionalPropagation` layer — a single function applied to both
descriptor sets, reflecting that the same module (the same parameters)
computes both deltas — paired with its schedule tag.  A `"cross"` tag
swaps the key/value sources; any other tag (the code's `else` branch,
commented `# if name == 'self'`) keeps them.  Both deltas are computed
from the not-yet-updated descriptors, then both sets advance by residual
addition. -/
def gnnForward {D : Type} [Add D] :
    List ((D → D → D) × String) → D → D → D × D
  | [], d0, d1 => (d0, d1)
  | (layer, name) :: rest, d0, d1 =>
    let srcs : D × D := if name = "cross" then (d1, d0) else (d0, d1)
    let delta0 := layer d0 srcs.1
    let delta1 := layer d1 srcs.2
    gnnForward rest (d0 + delta0) (d1 + delta1)

/-! ## Keypoint normalization (`normalize_keypoints`) -/

/-- `normalize_keypoints` (lines 65-72): `size` is the `[width, height]`
pair; `center = size / 2`, `scaling = size.max() * 0.7`, and every
keypoint is mapped to `(kpt - center) / scaling` componentwise. -/
noncomputable def normalize_keypoints (kpts : List (ℝ × ℝ)) (size : ℝ × ℝ) :
    List (ℝ × ℝ) :=
  let center := (size.1 / 2, size.2 / 2)
  let scaling := max size.1 size.2 * 0.7
  kpts.map fun k => ((k.1 - center.1) / scaling, (k.2 - center.2) / scaling)

/-- The normalizer as the specification words it: re-center by
subtracting `(width/2, height/2)` and divide by `0.7 × max(width, height)`. -/
noncomputable def normalizeSpec (kpts : List (ℝ × ℝ)) (w h : ℝ) :
    List (ℝ × ℝ) :=
  kpts.map fun k => ((k.1 - w / 2) / (0.7 * max w h), (k.2 - h / 2) / (0.7 * max w h))

/-! ## Log-space Sinkhorn (`log_sinkhorn_iterations`, `log_optimal_transport`) -/

/-- `torch.logsumexp` along one axis: the log of the sum of exponentials. -/
noncomputable def logSumExp {N : Nat} (f : Fin N → ℝ) : ℝ :=
  Real.log (∑ j, Real.exp (f j))

/-- One iteration of the loop body of `log_sinkhorn_iterations`
(lines 156-158): `u = log_mu - logsumexp(Z + v, dim=2)` followed by
`v = log_nu - logsumexp(Z + u, dim=1)` with the just-updated `u`. -/
noncomputable def sinkhornStep {M N : Nat} (Z : Matrix (Fin M) (Fin N) ℝ)
    (log_mu : Fin M → ℝ) (log_nu : Fin N → ℝ)
    (uv : (Fin M → ℝ) × (Fin N → ℝ)) : (Fin M → ℝ) × (Fin N → ℝ) :=
  let u := fun i => log_mu i - logSumExp (fun j => Z i j + uv.2 j)
  let v := fun j => log_nu j - logSumExp (fun i => Z i j + u i)
  (u, v)

/-- The `u`, `v` potentials after `iters` iterations of the loop in
`log_sinkhorn_iterations`, starting from `u = v = 0` (line 155). -/
noncomputable def sinkhornUV {M N : Nat} (Z : Matrix (Fin M) (Fin N) ℝ)
    (log_mu : Fin M → ℝ) (log_nu : Fin N → ℝ) : Nat → (Fin M → ℝ) × (Fin N → ℝ)
  | 0 => (fun _ => 0, fun _ => 0)
  | k + 1 => sinkhornStep Z log_mu log_nu (sinkhornUV Z log_mu log_nu k)

/-- `log_sinkhorn_iterations` (lines 153-159): returns
`Z + u.unsqueeze(2) + v.unsqueeze(1)` after `iters` loop iterations. -/
noncomputable def log_sinkhorn_iterations {M N : Nat} (Z : Matrix (Fin M) (Fin N) ℝ)
    (log_mu : Fin M → ℝ) (log_nu : Fin N → ℝ) (iters : Nat) :
    Matrix (Fin M) (Fin N) ℝ :=
  fun i j => Z i j + (sinkhornUV Z log_mu log_nu iters).1 i
    + (sinkhornUV Z log_mu log_nu iters).2 j

/-- The augmented `couplings` matrix of `log_optimal_transport`
(lines 167-172): `scores` bordered by an `α`-filled extra column
(`bins0`), an `α`-filled extra row (`bins1`) and corner cell `α`. -/
noncomputable def otCouplings {a b : Nat} (scores : Matrix (Fin a) (Fin b) ℝ)
    (α : ℝ) : Matrix (Fin (a + 1)) (Fin (b + 1)) ℝ :=
  fun i j =>
    if hi : (i : Nat) < a then
      if hj : (j : Nat) < b then scores ⟨i.val, hi⟩ ⟨j.val, hj⟩ else α
    else α

/-- `norm = -(ms + ns).log()` (line 174) with `ms = a` rows, `ns = b`
columns of the similarity matrix. -/
noncomputable def otNorm (a b : Nat) : ℝ := -Real.log ((a : ℝ) + (b : ℝ))

/-- `log_mu = cat([norm.expand(m), ns.log()[None] + norm])` (line 175). -/
noncomputable def otLogMu (a b : Nat) : Fin (a + 1) → ℝ :=
  fun i => if (i : Nat) < a then otNorm a b else Real.log (b : ℝ) + otNorm a b

/-- `log_nu = cat([norm.expand(n), ms.log()[None] + norm])` (line 176). -/
noncomputable def otLogNu (a b : Nat) : Fin (b + 1) → ℝ :=
  fun j => if (j : Nat) < b then otNorm a b else Real.log (a : ℝ) + otNorm a b

/-- `log_optimal_transport` (lines 162-181): run the log-space Sinkhorn
iterations on the augmented matrix with the above marginals, then
`Z = Z - norm`. -/
noncomputable def log_optimal_transport {a b : Nat} (scores : Matrix (Fin a) (Fin b) ℝ)
    (α : ℝ) (iters : Nat) : Matrix (Fin (a + 1)) (Fin (b + 1)) ℝ :=
  fun i j =>
    log_sinkhorn_iterations (otCouplings scores α) (otLogMu a b) (otLogNu a b) iters i j
      - otNorm a b

/-! ## The same solver, as claim C2 words it (specification side) -/

/-- Claim C2's augmented matrix: `Z` extended with an `α`-filled extra
column, an `α`-filled extra row and corner `α`. -/
noncomputable def otSpecMatrix {a b : Nat} (scores : Matrix (Fin a) (Fin b) ℝ)
    (α : ℝ) : Matrix (Fin (a + 1)) (Fin (b + 1)) ℝ :=
  fun i j =>
    if hi : (i : Nat) < a then
      if hj : (j : Nat) < b then scores ⟨i.val, hi⟩ ⟨j.val, hj⟩ else α
    else α

/-- Claim C2's row log-marginal targets: `-log(N0+N1)` for the first `N0`
rows, `log(N1) - log(N0+N1)` for the dustbin row. -/
noncomputable def otSpecLogMu (a b : Nat) : Fin (a + 1) → ℝ :=
  fun i => if (i : Nat) < a then -Real.log ((a : ℝ) + (b : ℝ))
    else Real.log (b : ℝ) - Real.log ((a : ℝ) + (b : ℝ))

/-- Claim C2's column log-marginal targets, symmetrically. -/
noncomputable def otSpecLogNu (a b : Nat) : Fin (b + 1) → ℝ :=
  fun j => if (j : Nat) < b then -Real.log ((a : ℝ) + (b : ℝ))
    else Real.log (a : ℝ) - Real.log ((a : ℝ) + (b : ℝ))

/-- Claim C2's iteration: starting from `u = v = 0`, each round sets
`u := log_mu - logsumexp(Z + v over columns)` and then
`v := log_nu - logsumexp(Z + u over rows)`. -/
noncomputable def otSpecUV {M N : Nat} (Z : Matrix (Fin M) (Fin N) ℝ)
    (log_mu : Fin M → ℝ) (log_nu : Fin N → ℝ) : Nat → (Fin M → ℝ) × (Fin N → ℝ)
  | 0 => (fun _ => 0, fun _ => 0)
  | k + 1 =>
    let u := fun i => log_mu i
      - Real.log (∑ j, Real.exp (Z i j + (otSpecUV Z log_mu log_nu k).2 j))
    let v := fun j => log_nu j - Real.log (∑ i, Real.exp (Z i j + u i))
    (u, v)

/-- Claim C2's asserted result: the augmented matrix plus the final
potentials, shifted by the constant `+log(N0+N1)`. -/
noncomputable def otSpecResult {a b : Nat} (scores : Matrix (Fin a) (Fin b) ℝ)
    (α : ℝ) (iters : Nat) : Matrix (Fin (a + 1)) (Fin (b + 1)) ℝ :=
  fun i j =>
    otSpecMatrix scores α i j
      + (otSpecUV (otSpecMatrix scores α) (otSpecLogMu a b) (otSpecLogNu a b) iters).1 i
      + (otSpecUV (otSpecMatrix scores α) (otSpecLogMu a b) (otSpecLogNu a b) iters).2 j
      + Real.log ((a : ℝ) + (b : ℝ))

/-! ## Match extraction (`SuperGlue.forward`, lines 281-292)

The extraction operates on the `(N0+1) × (N1+1)` output of the optimal
transport layer, with `N0 = m + 1` and `N1 = n + 1` keypoints (the claims
concern non-empty keypoint sets; empty ones take the bypass branch). -/

/-- Index of the maximum of `f`, first index on ties — the semantics of
`Tensor.max(dim)`'s returned indices. -/
noncomputable def argmaxFin {N : Nat} (f : Fin (N + 1) → ℝ) : Fin (N + 1) :=
  (List.finRange (N + 1)).foldl (fun best j => if f best < f j then j else best) 0

/-- `scores[:, :-1, :-1]`: drop the dustbin row and column. -/
def stripDustbin {M N : Nat} (S : Matrix (Fin (M + 1)) (Fin (N + 1)) ℝ) :
    Matrix (Fin M) (Fin N) ℝ :=
  fun i j => S i.castSucc j.castSucc

/-- `max0.indices` (line 281-282): per-row argmax of the dustbin-stripped
matrix. -/
noncomputable def max0Indices {m n : Nat} (S : Matrix (Fin (m + 2)) (Fin (n + 2)) ℝ)
    (i : Fin (m + 1)) : Fin (n + 1) :=
  argmaxFin (fun j => stripDustbin S i j)

/-- `max1.indices` (line 281-282): per-column argmax of the
dustbin-stripped matrix. -/
noncomputable def max1Indices {m n : Nat} (S : Matrix (Fin (m + 2)) (Fin (n + 2)) ℝ)
    (j : Fin (n + 1)) : Fin (m + 1) :=
  argmaxFin (fun i => stripDustbin S i j)

/-- `mutual0` (line 283): row `i`'s chosen column chooses row `i` back. -/
def mutual0 {m n : Nat} (S : Matrix (Fin (m + 2)) (Fin (n + 2)) ℝ)
    (i : Fin (m + 1)) : Prop :=
  max1Indices S (max0Indices S i) = i

noncomputable instance {m n : Nat} (S : Matrix (Fin (m + 2)) (Fin (n + 2)) ℝ) (i : Fin (m + 1)) :
    Decidable (mutual0 S i) := by
  unfold mutual0; infer_instance

/-- `mscores0 = where(mutual0, max0.values.exp(), 0)` (lines 285-286);
`max0.values` is the row maximum, attained at `max0.indices`. -/
noncomputable def mscores0 {m n : Nat} (S : Matrix (Fin (m + 2)) (Fin (n + 2)) ℝ)
    (i : Fin (m + 1)) : ℝ :=
  if mutual0 S i then Real.exp (stripDustbin S i (max0Indices S i)) else 0

/-- `valid0 = mutual0 & (mscores0 > match_threshold)` (line 288). -/
noncomputable def valid0 {m n : Nat} (S : Matrix (Fin (m + 2)) (Fin (n + 2)) ℝ)
    (θ : ℝ) (i : Fin (m + 1)) : Prop :=
  mutual0 S i ∧ θ < mscores0 S i

noncomputable instance {m n : Nat} (S : Matrix (Fin (m + 2)) (Fin (n + 2)) ℝ) (θ : ℝ)
    (i : Fin (m + 1)) : Decidable (valid0 S θ i) := by
  unfold valid0; infer_instance

/-- `indices0 = where(valid0, indices0, -1)` (line 290): the accepted
column index, `-1` otherwise (as an integer; the code's final cast to
float is modeled by `indices0Dtype`). -/
noncomputable def indices0 {m n : Nat} (S : Matrix (Fin (m + 2)) (Fin (n + 2)) ℝ)
    (θ : ℝ) (i : Fin (m + 1)) : ℤ :=
  if valid0 S θ i then ((max0Indices S i).val : ℤ) else -1

/-! ## Concrete coupling matrix used for the claim C4 analysis -/

/-- A concrete 2×2 coupling matrix (one keypoint per side plus dustbins)
whose single real cell holds `-4`: the row is its own mutual nearest
neighbor, yet `exp (-4) ≤ 1/5` fails the default `match_threshold`. -/
noncomputable def S0mat : Matrix (Fin 2) (Fin 2) ℝ :=
  fun i j => if i = 0 ∧ j = 0 then -4 else 1

/-! ## Theorems -/

/-- C8: for every keypoint array and every (width, height) pair, the
coordinate normalizer returns exactly
`(kpts - (width/2, height/2)) / (0.7 × max(width, height))`. -/
theorem normalize_keypoints_eq_spec (kpts : List (ℝ × ℝ)) (w h : ℝ) :
    normalize_keypoints kpts (w, h) = normalizeSpec kpts w h := by
  simp only [normalize_keypoints, normalizeSpec]
  simp only [mul_comm (max w h) (0.7 : ℝ)]

/-- C9: construction fails (the `assert` raises) for every weight-profile
selector other than the recognized presets `"indoor"` and `"outdoor"`;
no model value is ever produced for such a selector. -/
theorem init_rejects_unknown_weights (w : String) (h1 : w ≠ "indoor")
    (h2 : w ≠ "outdoor") :
    superGlueInit (some w) = Except.error ("AssertionError") := by
  unfold superGlueInit mergedWeights
  simp [h1, h2]

theorem init_rejects_unknown_weights_witness :
    (("semi-outdoor" : String) ≠ "indoor" ∧ ("semi-outdoor" : String) ≠ "outdoor") ∧
      superGlueInit (some ("semi-outdoor")) = Except.error ("AssertionError") :=
  ⟨⟨by decide, by decide⟩,
    init_rejects_unknown_weights ("semi-outdoor") (by decide) (by decide)⟩

/-- C5: at every layer of the graph network, a `"cross"` tag takes the
other set as key/value source and a `"self"` tag the same set, the deltas
for both sets are computed from the pre-update descriptors of both sets,
and only then do both sets advance by residual addition. -/
theorem gnn_layer_simultaneous_update {D : Type} [Add D] (layer : D → D → D)
    (name : String) (rest : List ((D → D → D) × String)) (d0 d1 : D) :
    gnnForward ((layer, name) :: rest) d0 d1 =
      gnnForward rest
        (d0 + layer d0 (if name = "cross" then d1 else d0))
        (d1 + layer d1 (if name = "cross" then d0 else d1)) := by
  by_cases h : name = "cross" <;> simp [gnnForward, h]

/-- C10: the graph network is symmetric in its two descriptor arguments:
since each schedule entry applies the same layer to both sets, running the
network on the swapped inputs returns exactly the swapped pair. -/
theorem gnn_forward_swap {D : Type} [Add D]
    (layers : List ((D → D → D) × String)) (d0 d1 : D) :
    gnnForward layers d1 d0 =
      ((gnnForward layers d0 d1).2, (gnnForward layers d0 d1).1) := by
  induction layers generalizing d0 d1 with
  | nil => rfl
  | cons l rest ih =>
    obtain ⟨layer, name⟩ := l
    by_cases h : name = "cross"
    · subst h
      simp only [gnnForward, if_pos rfl]
      exact ih _ _
    · simp only [gnnForward, if_neg h]
      exact ih _ _

/-- C3 counterexample: a concrete bypass call (`b = 1`, `N0 = 0`,
`N1 = 5`, `shape0 = [640, 480]`).  The returned `indices0` is sized by
`kpts0.shape[:-1] = [1, 0]`, which differs from the `shape0` argument, so
`shape0` does not size both outputs (it sizes only `mscores0`). -/
theorem bypass_sizing_counterexample :
    (forwardConstOutput 1 0 5 [640, 480]).map (fun p => p.1.shape) = some [1, 0] ∧
      ([1, 0] : List Nat) ≠ [640, 480] ∧
      (forwardConstOutput 1 0 5 [640, 480]).map (fun p => p.2.shape) =
        some [640, 480] := by
  decide

/-- C3 (amended): when either keypoint set is empty, the pipeline is
bypassed and the call returns an `indices0` filled with `-1` sized by
`kpts0.shape[:-1] = [b, N0]` (with int dtype) and an `mscores0` filled
with zeros sized by the `shape0` argument — the same side-0 sizing
sources in both the `N0 = 0` and the `N1 = 0` branches. -/
theorem bypass_outputs (b n0 n1 : Nat) (shape0 : List Nat)
    (h : n0 = 0 ∨ n1 = 0) :
    forwardConstOutput b n0 n1 shape0 =
      some (⟨[b, n0], -1, TorchDType.int⟩, ⟨shape0, 0, TorchDType.float⟩) := by
  unfold forwardConstOutput
  rw [if_pos h]
  rfl

theorem bypass_outputs_witness :
    ((0 : Nat) = 0 ∨ (5 : Nat) = 0) ∧
      forwardConstOutput 1 0 5 [640, 480] =
        some (⟨[1, 0], -1, TorchDType.int⟩, ⟨[640, 480], 0, TorchDType.float⟩) :=
  ⟨Or.inl rfl, bypass_outputs 1 0 5 [640, 480] (Or.inl rfl)⟩

/-- C7 counterexample: on the zero-keypoint bypass branch the returned
`indices0` has int dtype (`dtype=torch.int`), not float dtype. -/
theorem indices0_dtype_counterexample :
    indices0Dtype 1 0 5 [640, 480] = TorchDType.int ∧
      TorchDType.int ≠ TorchDType.float := by
  decide

/-- C7 (amended): the main path returns `indices0` with float dtype (the
final `.float()` cast), but the zero-keypoint bypass branch returns it
with int dtype. -/
theorem indices0_dtype_cases (b n0 n1 : Nat) (shape0 : List Nat) :
    (¬(n0 = 0 ∨ n1 = 0) → indices0Dtype b n0 n1 shape0 = TorchDType.float) ∧
      ((n0 = 0 ∨ n1 = 0) → indices0Dtype b n0 n1 shape0 = TorchDType.int) := by
  constructor
  · intro h
    unfold indices0Dtype forwardConstOutput
    rw [if_neg h]
  · intro h
    unfold indices0Dtype forwardConstOutput
    rw [if_pos h]

/-- C1: for a non-empty pair (`N0 = m+1`, `N1 = n+1` keypoints) and any
coupling matrix, `indices0 i` equals a column `j` (rather than `-1`) if
and only if `j` is the row-argmax of row `i` of the dustbin-stripped
matrix, `i` is the column-argmax of column `j`, and the exponentiated
value at cell `(i, j)` strictly exceeds the match threshold; and an
accepted row's returned score is exactly that exponentiated value. -/
theorem matches_iff_mutual_and_above_threshold (m n : Nat)
    (S : Matrix (Fin (m + 2)) (Fin (n + 2)) ℝ) (θ : ℝ)
    (i : Fin (m + 1)) (j : Fin (n + 1)) :
    (indices0 S θ i = (j.val : ℤ) ↔
      max0Indices S i = j ∧ max1Indices S j = i ∧
        θ < Real.exp (stripDustbin S i j)) ∧
    (indices0 S θ i = (j.val : ℤ) →
      mscores0 S i = Real.exp (stripDustbin S i j)) := by
  have hmut_of : max0Indices S i = j → max1Indices S j = i → mutual0 S i := by
    intro h1 h2
    unfold mutual0
    rw [h1]
    exact h2
  have hiff : indices0 S θ i = (j.val : ℤ) ↔
      max0Indices S i = j ∧ max1Indices S j = i ∧
        θ < Real.exp (stripDustbin S i j) := by
    unfold indices0
    by_cases hv : valid0 S θ i
    · rw [if_pos hv]
      have hv2 : mutual0 S i ∧ θ < mscores0 S i := hv
      obtain ⟨hm, hs⟩ := hv2
      constructor
      · intro h
        have hj : max0Indices S i = j := by
          have hval : (max0Indices S i).val = j.val := by exact_mod_cast h
          exact Fin.ext hval
        have hmm : max1Indices S j = i := by
          rw [← hj]
          exact hm
        refine ⟨hj, hmm, ?_⟩
        have hms : mscores0 S i = Real.exp (stripDustbin S i (max0Indices S i)) := by
          unfold mscores0
          rw [if_pos hm]
        rw [hms, hj] at hs
        exact hs
      · rintro ⟨h1, -, -⟩
        rw [h1]
    · rw [if_neg hv]
      constructor
      · intro h
        exfalso
        omega
      · rintro ⟨h1, h2, h3⟩
        exfalso
        apply hv
        have hm : mutual0 S i := hmut_of h1 h2
        have hms : mscores0 S i = Real.exp (stripDustbin S i (max0Indices S i)) := by
          unfold mscores0
          rw [if_pos hm]
        have hlt : θ < mscores0 S i := by
          rw [hms, h1]
          exact h3
        exact ⟨hm, hlt⟩
  refine ⟨hiff, ?_⟩
  intro h
  obtain ⟨h1, h2, -⟩ := hiff.mp h
  have hm : mutual0 S i := hmut_of h1 h2
  unfold mscores0
  rw [if_pos hm, h1]

/-- The single real row of `S0mat` is its own argmax row and column. -/
theorem S0_argmax : max0Indices S0mat 0 = 0 := Fin.fin_one_eq_zero _

/-- Mutuality holds in the 1×1 example `S0mat`. -/
theorem S0_mutual : mutual0 S0mat 0 := by
  unfold mutual0
  exact Fin.fin_one_eq_zero _

/-- The stripped cell chosen by row 0 of `S0mat` holds `-4`. -/
theorem S0_strip : stripDustbin S0mat 0 (max0Indices S0mat 0) = -4 := by
  rw [S0_argmax]
  show S0mat (Fin.castSucc 0) (Fin.castSucc 0) = -4
  norm_num [S0mat, Fin.castSucc_zero]

/-- The match score for row 0 of `S0mat` is `exp (-4)`. -/
theorem S0_mscore : mscores0 S0mat 0 = Real.exp (-4) := by
  unfold mscores0
  rw [if_pos S0_mutual, S0_strip]

/-- `exp (-4)` does not exceed the default match threshold `1/5`. -/
theorem exp_neg_four_le_fifth : Real.exp (-4 : ℝ) ≤ 1 / 5 := by
  have hinv : Real.exp (-4 : ℝ) * Real.exp 4 = 1 := by
    rw [← Real.exp_add]
    norm_num
  nlinarith [Real.exp_pos (-4 : ℝ), Real.add_one_le_exp (4 : ℝ)]

/-- Row 0 of `S0mat` fails the threshold test at threshold `1/5`. -/
theorem S0_not_valid : ¬valid0 S0mat (1 / 5) 0 := by
  intro hv
  have hv2 : mutual0 S0mat 0 ∧ (1 / 5 : ℝ) < mscores0 S0mat 0 := hv
  rw [S0_mscore] at hv2
  exact absurd hv2.2 (not_lt.mpr exp_neg_four_le_fifth)

/-- Row 0 of `S0mat` is rejected at threshold `1/5`. -/
theorem S0_indices : indices0 S0mat (1 / 5) 0 = -1 := by
  unfold indices0
  rw [if_neg S0_not_valid]

/-- C4 counterexample: in the 1×1 example `S0mat` with the default
threshold `0.2 = 1/5`, row 0 is rejected (`indices0 = -1`) because its
exponentiated score `exp (-4)` does not exceed the threshold, yet the
returned score is `exp (-4) ≠ 0`: rejection does not force a zero score. -/
theorem rejected_row_nonzero_score_counterexample :
    indices0 S0mat (1 / 5) 0 = -1 ∧ mscores0 S0mat 0 ≠ 0 :=
  ⟨S0_indices, by
    rw [S0_mscore]
    exact (Real.exp_pos _).ne'⟩

/-- C4 (amended): a rejected row (`indices0 i = -1`) has score 0 exactly
when mutual-nearest-neighbor failed; when mutuality holds but the
threshold test fails, the returned score is the exponentiated coupling
value, which is ≤ the threshold but not zero in general. -/
theorem rejected_row_score_cases (m n : Nat)
    (S : Matrix (Fin (m + 2)) (Fin (n + 2)) ℝ) (θ : ℝ) (i : Fin (m + 1))
    (h : indices0 S θ i = -1) :
    (¬mutual0 S i ∧ mscores0 S i = 0) ∨
      (mutual0 S i ∧
        mscores0 S i = Real.exp (stripDustbin S i (max0Indices S i)) ∧
        mscores0 S i ≤ θ) := by
  have hnv : ¬valid0 S θ i := by
    intro hv
    unfold indices0 at h
    rw [if_pos hv] at h
    omega
  by_cases hm : mutual0 S i
  · right
    refine ⟨hm, by unfold mscores0; rw [if_pos hm], ?_⟩
    by_contra hgt
    push_neg at hgt
    exact hnv ⟨hm, hgt⟩
  · left
    exact ⟨hm, by unfold mscores0; rw [if_neg hm]⟩

theorem rejected_row_score_cases_witness :
    indices0 S0mat (1 / 5) 0 = -1 ∧
      ((¬mutual0 S0mat 0 ∧ mscores0 S0mat 0 = 0) ∨
        (mutual0 S0mat 0 ∧
          mscores0 S0mat 0 = Real.exp (stripDustbin S0mat 0 (max0Indices S0mat 0)) ∧
          mscores0 S0mat 0 ≤ 1 / 5)) :=
  ⟨S0_indices, rejected_row_score_cases 0 0 S0mat (1 / 5) 0 S0_indices⟩

/-- The source loop and the iteration described by claim C2 compute the
same potentials. -/
theorem sinkhornUV_eq_otSpecUV {M N : Nat} (Z : Matrix (Fin M) (Fin N) ℝ)
    (log_mu : Fin M → ℝ) (log_nu : Fin N → ℝ) (k : Nat) :
    sinkhornUV Z log_mu log_nu k = otSpecUV Z log_mu log_nu k := by
  induction k with
  | zero => rfl
  | succ k ih =>
    show sinkhornStep Z log_mu log_nu (sinkhornUV Z log_mu log_nu k) = _
    rw [ih]
    rfl

/-- C2: `log_optimal_transport` builds the augmented matrix with an
α-filled extra column, row and corner; sets the log-marginal targets to
`-log(N0+N1)` for real rows/columns and `log(N1)-log(N0+N1)` (resp.
`log(N0)-log(N0+N1)`) for the dustbins; runs exactly `iters` rounds of
`u := log_mu - logsumexp(Z+v)` then `v := log_nu - logsumexp(Z+u)`
starting from `u = v = 0`; and returns `Z + u + v` shifted by the
constant `+log(N0+N1)`. -/
theorem log_optimal_transport_eq_spec (a b : Nat)
    (scores : Matrix (Fin a) (Fin b) ℝ) (α : ℝ) (iters : Nat) :
    log_optimal_transport scores α iters = otSpecResult scores α iters := by
  have hmat : otCouplings scores α = otSpecMatrix scores α := rfl
  have hmu : otLogMu a b = otSpecLogMu a b := by
    funext i
    unfold otLogMu otSpecLogMu otNorm
    by_cases h : (i : Nat) < a
    · rw [if_pos h, if_pos h]
    · rw [if_neg h, if_neg h]
      ring
  have hnu : otLogNu a b = otSpecLogNu a b := by
    funext j
    unfold otLogNu otSpecLogNu otNorm
    by_cases h : (j : Nat) < b
    · rw [if_pos h, if_pos h]
    · rw [if_neg h, if_neg h]
      ring
  funext i j
  unfold log_optimal_transport otSpecResult log_sinkhorn_iterations
  rw [hmat, hmu, hnu, sinkhornUV_eq_otSpecUV]
  unfold otNorm
  ring

/-- After any update of the form `v := log_nu - logsumexp(Z + u)` over a
nonempty row index type, every column marginal of the exponentiated
coupling equals its target. -/
theorem exp_col_sum_of_v {M N : Nat} (Z : Matrix (Fin (M + 1)) (Fin N) ℝ)
    (log_nu : Fin N → ℝ) (u : Fin (M + 1) → ℝ) (v : Fin N → ℝ) (j : Fin N)
    (hv : v j = log_nu j - logSumExp (fun i => Z i j + u i)) :
    ∑ i, Real.exp (Z i j + u i + v j) = Real.exp (log_nu j) := by
  have hspos : 0 < ∑ i, Real.exp (Z i j + u i) :=
    Finset.sum_pos (fun i _ => Real.exp_pos _) Finset.univ_nonempty
  have hexp : Real.exp (v j) = Real.exp (log_nu j) / ∑ i, Real.exp (Z i j + u i) := by
    rw [hv, Real.exp_sub]
    congr 1
    unfold logSumExp
    exact Real.exp_log hspos
  calc ∑ i, Real.exp (Z i j + u i + v j)
      = ∑ i, Real.exp (Z i j + u i) * Real.exp (v j) :=
        Finset.sum_congr rfl fun i _ => Real.exp_add _ _
    _ = (∑ i, Real.exp (Z i j + u i)) * Real.exp (v j) := by
        rw [← Finset.sum_mul]
    _ = (∑ i, Real.exp (Z i j + u i)) *
          (Real.exp (log_nu j) / ∑ i, Real.exp (Z i j + u i)) := by
        rw [hexp]
    _ = Real.exp (log_nu j) := by
        field_simp

/-- After at least one Sinkhorn iteration (the loop ends with a column
update), the exponentiated coupling satisfies the column marginals. -/
theorem sinkhorn_exp_col_sum {M N : Nat} (Z : Matrix (Fin (M + 1)) (Fin N) ℝ)
    (log_mu : Fin (M + 1) → ℝ) (log_nu : Fin N → ℝ) (k : Nat) (j : Fin N) :
    ∑ i, Real.exp (Z i j + (sinkhornUV Z log_mu log_nu (k + 1)).1 i
      + (sinkhornUV Z log_mu log_nu (k + 1)).2 j) = Real.exp (log_nu j) := by
  apply exp_col_sum_of_v
  rfl

/-- One exponential is at most the sum of all of them. -/
theorem exp_term_le_sum {M2 : Nat} (g : Fin (M2 + 1) → ℝ) (i : Fin (M2 + 1)) :
    Real.exp (g i) ≤ ∑ i3, Real.exp (g i3) :=
  Finset.single_le_sum (fun i3 _ => (Real.exp_pos (g i3)).le) (Finset.mem_univ i)

/-- C6: for every non-empty pair (sizes `N0 = m+1`, `N1 = n+1`), any
similarity matrix, bin score, threshold and positive iteration count, the
extracted `indices0 i` is either `-1` or an integer in `[0, N1-1]`, and
`mscores0 i` lies in `[0, 1]`: the exponentiated coupling value is
bounded by the Sinkhorn column-marginal constraint after the final column
update and the `+log(N0+N1)` shift. -/
theorem match_outputs_in_range (m n : Nat)
    (scores : Matrix (Fin (m + 1)) (Fin (n + 1)) ℝ) (α θ : ℝ) (k : Nat)
    (i : Fin (m + 1)) :
    (indices0 (log_optimal_transport scores α (k + 1)) θ i = -1 ∨
      (0 ≤ indices0 (log_optimal_transport scores α (k + 1)) θ i ∧
        indices0 (log_optimal_transport scores α (k + 1)) θ i < (n : ℤ) + 1)) ∧
    0 ≤ mscores0 (log_optimal_transport scores α (k + 1)) i ∧
    mscores0 (log_optimal_transport scores α (k + 1)) i ≤ 1 := by
  have hbound : ∀ (i2 : Fin (m + 2)) (j2 : Fin (n + 2)), (j2 : Nat) < n + 1 →
      Real.exp (log_optimal_transport scores α (k + 1) i2 j2) ≤ 1 := by
    intro i2 j2 hj
    have hX : Real.exp (log_sinkhorn_iterations (otCouplings scores α)
        (otLogMu (m + 1) (n + 1)) (otLogNu (m + 1) (n + 1)) (k + 1) i2 j2) ≤
        Real.exp (otLogNu (m + 1) (n + 1) j2) := by
      calc Real.exp (log_sinkhorn_iterations (otCouplings scores α)
            (otLogMu (m + 1) (n + 1)) (otLogNu (m + 1) (n + 1)) (k + 1) i2 j2)
          = Real.exp (otCouplings scores α i2 j2
              + (sinkhornUV (otCouplings scores α) (otLogMu (m + 1) (n + 1))
                  (otLogNu (m + 1) (n + 1)) (k + 1)).1 i2
              + (sinkhornUV (otCouplings scores α) (otLogMu (m + 1) (n + 1))
                  (otLogNu (m + 1) (n + 1)) (k + 1)).2 j2) := rfl
        _ ≤ ∑ i3, Real.exp (otCouplings scores α i3 j2
              + (sinkhornUV (otCouplings scores α) (otLogMu (m + 1) (n + 1))
                  (otLogNu (m + 1) (n + 1)) (k + 1)).1 i3
              + (sinkhornUV (otCouplings scores α) (otLogMu (m + 1) (n + 1))
                  (otLogNu (m + 1) (n + 1)) (k + 1)).2 j2) :=
            exp_term_le_sum (fun i3 => otCouplings scores α i3 j2
              + (sinkhornUV (otCouplings scores α) (otLogMu (m + 1) (n + 1))
                  (otLogNu (m + 1) (n + 1)) (k + 1)).1 i3
              + (sinkhornUV (otCouplings scores α) (otLogMu (m + 1) (n + 1))
                  (otLogNu (m + 1) (n + 1)) (k + 1)).2 j2) i2
        _ = Real.exp (otLogNu (m + 1) (n + 1) j2) :=
            sinkhorn_exp_col_sum (otCouplings scores α) (otLogMu (m + 1) (n + 1))
              (otLogNu (m + 1) (n + 1)) k j2
    have hnu : otLogNu (m + 1) (n + 1) j2 = otNorm (m + 1) (n + 1) := by
      unfold otLogNu
      rw [if_pos hj]
    show Real.exp (log_sinkhorn_iterations (otCouplings scores α)
        (otLogMu (m + 1) (n + 1)) (otLogNu (m + 1) (n + 1)) (k + 1) i2 j2
        - otNorm (m + 1) (n + 1)) ≤ 1
    rw [Real.exp_sub, div_le_one (Real.exp_pos _)]
    rw [hnu] at hX
    exact hX
  constructor
  · unfold indices0
    by_cases hv : valid0 (log_optimal_transport scores α (k + 1)) θ i
    · right
      rw [if_pos hv]
      refine ⟨Int.natCast_nonneg _, ?_⟩
      have hlt := (max0Indices (log_optimal_transport scores α (k + 1)) i).isLt
      omega
    · left
      rw [if_neg hv]
  · unfold mscores0
    by_cases hmut : mutual0 (log_optimal_transport scores α (k + 1)) i
    · rw [if_pos hmut]
      refine ⟨(Real.exp_pos _).le, ?_⟩
      apply hbound
      simp
    · rw [if_neg hmut]
      norm_num
